import Mathlib

/-!
Shallow embedding of the TuboCMS video-processing pipeline
(`apps/videos/services` and friends) in Lean 4, together with proofs of
the behavioural claims about it.

External effects (running ffmpeg, the filesystem, the database, the task
queue) are modelled as explicit inputs: the outcome of a subprocess run,
the per-profile success of an encode attempt, the stored rows, etc.  Each
Lean definition mirrors one Python function of the source tree; names are
kept where Lean allows.
-/

namespace TuboCMS

/-! ## FFmpegWrapper (`services/ffmpeg_wrapper.py`) -/

/-- Result of FFmpeg command execution (dataclass `FFmpegResult`). -/
structure FFmpegResult where
  success : Bool
  stdout : String := ""
  stderr : String := ""
  return_code : Int := -1
  error_message : String := ""
  timed_out : Bool := false
  duration_seconds : Nat := 0
  deriving Repr, DecidableEq

/-- The possible outcomes of the underlying `subprocess.run` call inside
`FFmpegWrapper.run_command`: normal completion with an exit code and
captured output, a `TimeoutExpired`, a `FileNotFoundError`, or any other
exception (carrying its string rendering). -/
inductive SubprocessOutcome where
  | completed (returncode : Int) (stdout stderr : String)
  | timedOut
  | fileNotFound
  | unexpected (msg : String)
  deriving Repr, DecidableEq

/-- `FFmpegWrapper.run_command`: total function from the subprocess
outcome (plus the timeout and the elapsed wall time) to the structured
result.  The Python function catches every exception, so the embedding
is a plain total function. -/
def run_command (timeout : Option Nat) (duration : Nat)
    (o : SubprocessOutcome) : FFmpegResult :=
  match o with
  | .completed rc out err =>
      if rc = 0 then
        { success := true, stdout := out, stderr := err, return_code := rc,
          duration_seconds := duration }
      else
        { success := false, stdout := out, stderr := err, return_code := rc,
          error_message :=
            "FFmpeg failed with code " ++ toString rc ++ ": " ++ err.take 500,
          duration_seconds := duration }
  | .timedOut =>
      { success := false,
        error_message :=
          "Command timed out after " ++
            (match timeout with | some t => toString t | none => "None") ++
            " seconds",
        timed_out := true, duration_seconds := duration }
  | .fileNotFound =>
      { success := false,
        error_message := "FFmpeg not found. Please install FFmpeg and add to PATH." }
  | .unexpected msg =>
      { success := false, error_message := "Unexpected error: " ++ msg,
        duration_seconds := duration }

/-- Minimum free disk space in bytes (1GB), `FFmpegWrapper.MIN_FREE_DISK_SPACE`. -/
def MIN_FREE_DISK_SPACE : Nat := 1024 * 1024 * 1024

/-- `FFmpegWrapper.check_disk_space`.  The `shutil.disk_usage` query is an
explicit input: `some (total, used, free)` on success, `none` when it (or
the path normalisation before it) raises.  Returns
`(has_space, free_bytes, message)`. -/
def check_disk_space (required_bytes : Option Nat)
    (usage : Option (Nat × Nat × Nat)) : Bool × Nat × String :=
  match usage with
  | none => (true, 0, "Could not check disk space")
  | some (_total, _used, free) =>
      let required := required_bytes.getD MIN_FREE_DISK_SPACE
      if free < required then
        (false, free,
          "Insufficient disk space: " ++ toString (free / (1024 * 1024)) ++
            "MB free, " ++ toString (required / (1024 * 1024)) ++ "MB required")
      else
        (true, free, "Disk space OK: " ++ toString (free / (1024 * 1024)) ++ "MB free")

/-! ## Profile selection (`get_suitable_profiles` in `ffmpeg_wrapper.py`) -/

/-- The fields of `VideoEncodingProfile` the pipeline reads. -/
structure Profile where
  name : String
  resolution : String
  width : Nat
  height : Nat
  bitrate : Nat
  deriving Repr, DecidableEq

/-- One comparison step of Python's `min` by height: the challenger `q`
replaces the accumulator only on a strictly smaller key. -/
def pyMinStep (acc q : Profile) : Profile :=
  if q.height < acc.height then q else acc

/-- Python's `min(profiles, key=lambda p: p.height)`: first element of
minimal height (`min` keeps the earliest element on ties). -/
def pyMinByHeight : List Profile → Option Profile
  | [] => none
  | p :: ps => some (ps.foldl pyMinStep p)

/-- `get_suitable_profiles(video_path, profiles)`.  The probed source
resolution is an explicit input `(source_width, source_height)`; the probe
reports `0` for an unknown dimension. -/
def get_suitable_profiles (source_width source_height : Nat)
    (profiles : List Profile) : List Profile :=
  if source_width = 0 ∨ source_height = 0 then
    profiles
  else
    let suitable := profiles.filter (fun p => p.height ≤ source_height)
    if suitable.isEmpty then
      match pyMinByHeight profiles with
      | some lowest => [lowest]
      | none => []
    else
      suitable

/-! ## EncodingService (`services/encoding_service.py`) -/

/-- Result of encoding a single profile (dataclass `EncodingResult`). -/
structure EncodingResult where
  profile_name : String
  resolution : String
  success : Bool
  output_path : String := ""
  file_size : Nat := 0
  duration_seconds : Nat := 0
  error_message : String := ""
  deriving Repr, DecidableEq

/-- The external effect of one encode attempt: for each profile, whether
the ffmpeg run succeeded and the output file exists, plus the observed
size, elapsed time and error text.  Fixing this function models the
claims' premise that each profile's individual attempt has a fixed
outcome. -/
structure EncodeEffect where
  success : Profile → Bool
  file_size : Profile → Nat
  duration_seconds : Profile → Nat
  error_message : Profile → String

/-- `EncodingService.encode_single`. -/
def encode_single (eff : EncodeEffect) (output_dir : String) (video_id : Nat)
    (p : Profile) : EncodingResult :=
  let output_path :=
    output_dir ++ "/" ++ p.resolution ++ "/" ++
      toString video_id ++ "_" ++ p.resolution ++ ".mp4"
  if eff.success p then
    { profile_name := p.name, resolution := p.resolution, success := true,
      output_path := output_path, file_size := eff.file_size p,
      duration_seconds := eff.duration_seconds p }
  else
    { profile_name := p.name, resolution := p.resolution, success := false,
      error_message := eff.error_message p,
      duration_seconds := eff.duration_seconds p }

/-- `EncodingService._encode_sequential`, starting at index `i` of `total`
profiles.  Returns the collected results together with the list of percent
values passed to the progress callback; `int((i/total)*100)` is emitted
before each attempt, and the loop `break`s after the first failed result.
Python's float truncation `int(x)` is modelled by `Nat` floor division;
the properties proved below depend only on its monotonicity and range. -/
def encode_sequential (eff : EncodeEffect) (output_dir : String) (video_id : Nat)
    (total : Nat) : Nat → List Profile → List EncodingResult × List Nat
  | _, [] => ([], [])
  | i, p :: ps =>
      let emit := i * 100 / total
      let r := encode_single eff output_dir video_id p
      if r.success then
        let rest := encode_sequential eff output_dir video_id total (i + 1) ps
        (r :: rest.1, emit :: rest.2)
      else
        ([r], [emit])

/-- `EncodingService._encode_parallel`.  The thread pool's completion
order is the explicit input `order` (a permutation of the submitted
profiles); each completion appends its result, increments `completed`,
and emits `int((completed/total)*100)`.  (The `except` branch of
`future.result()` cannot fire here because `encode_single` is total:
every attempt returns a result.) -/
def encode_parallel (eff : EncodeEffect) (output_dir : String) (video_id : Nat)
    (total : Nat) : Nat → List Profile → List EncodingResult × List Nat
  | _, [] => ([], [])
  | completed, p :: ps =>
      let r := encode_single eff output_dir video_id p
      let c := completed + 1
      let rest := encode_parallel eff output_dir video_id total c ps
      (r :: rest.1, (c * 100 / total) :: rest.2)

/-- `EncodingService.encode_multiple`: filter suitable profiles, then
dispatch to the parallel path when `parallel` is set and more than one
profile survived, else to the sequential path.  `order` is the parallel
completion order (a permutation of the suitable profiles). -/
def encode_multiple (eff : EncodeEffect) (output_dir : String) (video_id : Nat)
    (source_width source_height : Nat) (profiles : List Profile)
    (parallel : Bool) (order : List Profile) : List EncodingResult × List Nat :=
  if profiles.isEmpty then ([], [])
  else
    let suitable := get_suitable_profiles source_width source_height profiles
    if parallel && decide (suitable.length > 1) then
      encode_parallel eff output_dir video_id suitable.length 0 order
    else
      encode_sequential eff output_dir video_id suitable.length 0 suitable

/-! ## ProcessingPipeline (`services/processing_pipeline.py`) -/

/-- Dataclass `PipelineConfig`. -/
structure PipelineConfig where
  parallel_encoding : Bool := true
  max_parallel_jobs : Nat := 2
  cleanup_on_error : Bool := true
  check_disk : Bool := true
  min_disk_space_mb : Nat := 1024

/-- Dataclass `PipelineResult` (timing and metrics fields omitted: no
claim mentions them). -/
structure PipelineResult where
  success : Bool
  video_id : Nat
  poster_path : String := ""
  preview_path : String := ""
  encoded_files : List EncodingResult := []
  error_message : String := ""
  error_stage : String := ""
  deriving Repr, DecidableEq

/-- The external world one pipeline run observes: tool availability, the
source file, the disk-usage query, the poster/preview stage outcomes, the
probed source resolution, the per-profile encode effect and the parallel
completion order. -/
structure PipelineEnv where
  ffmpeg_available : Bool
  source_exists : Bool
  disk_usage : Option (Nat × Nat × Nat)
  poster_ok : Bool
  poster_path : String
  preview_ok : Bool
  preview_path : String
  source_width : Nat
  source_height : Nat
  eff : EncodeEffect
  parallel_order : List Profile

/-- `ProcessingPipeline._validate`: FFmpeg availability, source-file
existence, then (when enabled) the disk-space check against the
configured minimum.  Returns the error message or `none`. -/
def pipeline_validate (cfg : PipelineConfig) (env : PipelineEnv)
    (video_path : String) : Option String :=
  if ¬ env.ffmpeg_available then some "FFmpeg is not available"
  else if ¬ env.source_exists then some ("Source video not found: " ++ video_path)
  else if cfg.check_disk then
    let r := check_disk_space (some (cfg.min_disk_space_mb * 1024 * 1024)) env.disk_usage
    if ¬ r.1 then some r.2.2 else none
  else none

/-- `ProcessingPipeline.process`.  Returns the `PipelineResult` together
with the sequence of percent values reported through the progress
callback, in order.  The encoding-stage callback wraps the encoder's
percent `p` as `35 + int(p * 0.55)` (modelled as `35 + p * 55 / 100`). -/
def process (cfg : PipelineConfig) (env : PipelineEnv) (video_id : Nat)
    (video_path : String) (profiles : List Profile) :
    PipelineResult × List Nat :=
  match pipeline_validate cfg env video_path with
  | some e =>
      ({ success := false, video_id := video_id, error_message := e,
         error_stage := "validation" }, [5])
  | none =>
      if ¬ env.poster_ok then
        ({ success := false, video_id := video_id,
           error_message := "Poster extraction failed for video " ++ toString video_id,
           error_stage := "poster_extraction" }, [5, 10, 15])
      else if ¬ env.preview_ok then
        ({ success := false, video_id := video_id,
           error_message := "Preview generation failed for video " ++ toString video_id,
           error_stage := "preview_generation" }, [5, 10, 15, 25])
      else
        let enc := encode_multiple env.eff "videos" video_id
          env.source_width env.source_height profiles
          cfg.parallel_encoding env.parallel_order
        let emitted := [5, 10, 15, 25, 35] ++ enc.2.map (fun p => 35 + p * 55 / 100)
        if (enc.1.filter (fun r => r.success)).isEmpty then
          ({ success := false, video_id := video_id,
             error_message := "All encoding profiles failed",
             error_stage := "encoding" }, emitted)
        else
          ({ success := true, video_id := video_id,
             poster_path := env.poster_path, preview_path := env.preview_path,
             encoded_files := enc.1 }, emitted ++ [95, 100])

/-! ## HLSService (`services/hls_service.py`) -/

/-- The fields of a per-profile HLS generation result (a Python dict)
that `generate_master_playlist` reads. -/
structure HLSOutput where
  success : Bool
  profile : String
  deriving Repr, DecidableEq

/-- The ordered substring-to-bitrate map inside `HLSService._extract_bitrate`. -/
def bitrate_map : List (String × Nat) :=
  [("240p", 300), ("360p", 500), ("480p", 1000), ("720p", 2500), ("1080p", 5000)]

/-- Char-list prefix test, structural recursion. -/
def charsPrefixOf : List Char → List Char → Bool
  | [], _ => true
  | _ :: _, [] => false
  | a :: as, b :: bs => a == b && charsPrefixOf as bs

/-- Substring occurrence over char lists: the pattern is a prefix of some
suffix. -/
def charsContains (s pat : List Char) : Bool :=
  match s with
  | [] => charsPrefixOf pat []
  | _ :: rest => charsPrefixOf pat s || charsContains rest pat

/-- Python's `pat in s` substring test. -/
def strContains (s pat : String) : Bool := charsContains s.data pat.data

/-- `HLSService._extract_bitrate`: first map entry whose key occurs in the
profile name, else the default 1000. -/
def extract_bitrate (profile_name : String) : Nat :=
  match bitrate_map.find? (fun kv => strContains profile_name kv.1) with
  | some kv => kv.2
  | none => 1000

/-- The ordered substring-to-resolution map inside `HLSService._extract_resolution`. -/
def resolution_map : List (String × String) :=
  [("240p", "426x240"), ("360p", "640x360"), ("480p", "854x480"),
   ("720p", "1280x720"), ("1080p", "1920x1080")]

/-- `HLSService._extract_resolution`. -/
def extract_resolution (profile_name : String) : String :=
  match resolution_map.find? (fun kv => strContains profile_name kv.1) with
  | some kv => kv.2
  | none => "640x360"

/-- The descending-bitrate order used by
`sorted(..., key=_extract_bitrate(profile), reverse=True)`. -/
def hlsGe (a b : HLSOutput) : Prop :=
  extract_bitrate b.profile ≤ extract_bitrate a.profile

instance : DecidableRel hlsGe := fun a b =>
  Nat.decLe (extract_bitrate b.profile) (extract_bitrate a.profile)

/-- The two playlist lines one variant contributes. -/
def variant_lines (base_url : String) (o : HLSOutput) : List String :=
  let bitrate := extract_bitrate o.profile
  let resolution := extract_resolution o.profile
  let playlist_url :=
    if base_url ≠ "" then base_url ++ o.profile ++ "/playlist.m3u8"
    else o.profile ++ "/playlist.m3u8"
  ["#EXT-X-STREAM-INF:BANDWIDTH=" ++ toString (bitrate * 1000) ++
     ",RESOLUTION=" ++ resolution,
   playlist_url]

/-- `HLSService.generate_master_playlist`: keep the successful outputs,
sort them by descending extracted bitrate, return `false` (here `none`)
and write nothing when none remain, else write the manifest (here: return
its lines).  Filesystem failures (the `except` branch) are outside this
model; the insertion sort stands in for Python's stable `sorted`. -/
def generate_master_playlist (hls_outputs : List HLSOutput) (base_url : String) :
    Option (List String) :=
  let sorted_outputs := List.insertionSort hlsGe (hls_outputs.filter (fun o => o.success))
  if sorted_outputs.isEmpty then none
  else
    let header := ["#EXTM3U", "#EXT-X-VERSION:3", "#EXT-X-TARGETDURATION:10",
      "#EXT-X-MEDIA-SEQUENCE:0"]
    some (header ++ (sorted_outputs.map (variant_lines base_url)).flatten)

/-! ## AlertService (`services/alert_service.py`, `models_alerts.py`) -/

/-- `Alert.status` choices. -/
inductive AlertStatus where
  | active
  | resolved
  | acknowledged
  deriving Repr, DecidableEq

/-- The fields of `AlertRule` the periodic check reads.  Threshold and
observed values are scaled integers standing in for the stored floats. -/
structure AlertRule where
  threshold_value : Int
  cooldown_minutes : Nat
  deriving Repr, DecidableEq

/-- The fields of one `Alert` row the periodic check reads or writes.
`created_at` is in minutes. -/
structure Alert where
  created_at : Nat
  status : AlertStatus
  current_value : Int := 0
  resolved_at : Option Nat := none
  deriving Repr, DecidableEq

/-- The descending `created_at` order of `order_by('-created_at')`. -/
def alertCreatedGe (a b : Alert) : Prop := b.created_at ≤ a.created_at

instance : DecidableRel alertCreatedGe := fun a b =>
  Nat.decLe b.created_at a.created_at

/-- `Alert.objects.filter(rule=..., status='active').order_by('-created_at').first()`
over the given rule's alert rows. -/
def latest_active_alert (alerts : List Alert) : Option Alert :=
  (List.insertionSort alertCreatedGe
    (alerts.filter (fun a => a.status = .active))).head?

/-- `AlertService._should_check_rule`:
`timezone.now() - last_alert.created_at > cooldown`.  Truncated `Nat`
subtraction agrees with the Python timedelta comparison: a negative
difference and a zero one both fail the strict `>`. -/
def should_check_rule (now : Nat) (rule : AlertRule) (alerts : List Alert) : Bool :=
  match latest_active_alert alerts with
  | none => true
  | some a => decide (now - a.created_at > rule.cooldown_minutes)

/-- `AlertService._threshold_exceeded` for the numeric alert types
(`queue_size`, `error_rate`, `disk_space`, `processing_time`):
strict comparison against the threshold. -/
def threshold_exceeded (rule : AlertRule) (current_value : Int) : Bool :=
  decide (current_value > rule.threshold_value)

/-- `AlertService._trigger_alert`: `Alert.objects.create(...)` appends one
row with the default status `active`. -/
def trigger_alert (now : Nat) (value : Int) (alerts : List Alert) : List Alert :=
  alerts ++ [{ created_at := now, status := .active, current_value := value }]

/-- `AlertService._resolve_alerts_if_needed`: when the threshold is no
longer exceeded, call `Alert.resolve()` on every active row. -/
def resolve_alerts_if_needed (now : Nat) (rule : AlertRule) (value : Int)
    (alerts : List Alert) : List Alert :=
  if ¬ threshold_exceeded rule value then
    alerts.map (fun a =>
      if a.status = .active then
        { a with status := .resolved, resolved_at := some now }
      else a)
  else alerts

/-- `AlertService._check_rule` for one rule with an observed value
(`_get_current_value` returned non-`None`); the `SystemMetric.record` and
notification side effects do not touch the alert rows' status. -/
def check_rule (now : Nat) (rule : AlertRule) (value : Int)
    (alerts : List Alert) : List Alert :=
  if threshold_exceeded rule value then trigger_alert now value alerts
  else resolve_alerts_if_needed now rule value alerts

/-- One rule's slice of `AlertService.check_all_rules`: the rule is
evaluated only when `_should_check_rule` passes. -/
def check_rule_step (now : Nat) (rule : AlertRule) (value : Int)
    (alerts : List Alert) : List Alert :=
  if should_check_rule now rule alerts then check_rule now rule value alerts
  else alerts

/-! ## Periodic sweep and retry view (`tasks.py`, `views_progress.py`) -/

/-- The fields of a `Video` row the sweep and the retry view touch.
Timestamps are in seconds; an empty `temp_video_file` is a falsy
`FileField` (no stored name). -/
structure VideoRec where
  id : Nat
  processing_status : String
  processing_progress : Nat := 0
  processing_error : String := ""
  updated_at : Nat
  temp_video_file : String := ""
  deriving Repr, DecidableEq

/-- The error note written by the stuck-job reset. -/
def STUCK_ERROR : String := "Reset: stuck in processing for >2 hours"

/-- Step 1 of `process_pending_videos`: every video with status
`"processing"` and `updated_at` strictly older than `now` minus 2 hours
is reset to `"pending"` with the explanatory error (the save also
refreshes `updated_at`).  Truncated subtraction matches the Python
comparison against `timezone.now() - timedelta(hours=2)`. -/
def stuck_reset_one (now : Nat) (v : VideoRec) : VideoRec :=
  if v.processing_status = "processing" ∧ v.updated_at < now - 7200 then
    { v with processing_status := "pending", processing_error := STUCK_ERROR,
             updated_at := now }
  else v

/-- The sweep applies the reset row by row over the filtered queryset;
rows the filter misses are untouched, so the sweep is the pointwise map. -/
def stuck_reset (now : Nat) (videos : List VideoRec) : List VideoRec :=
  videos.map (stuck_reset_one now)

/-- The JSON body and HTTP status the retry view returns. -/
structure RetryResponse where
  success : Bool
  status_code : Nat
  message : String
  deriving Repr, DecidableEq

/-- `retry_video_processing` (`views_progress.py`): returns the response,
the stored row after the request, and whether `process_video_async.delay`
was invoked.  The enqueue call is modelled as succeeding (its `except`
branch is an external queue failure); both rejection branches return
before any write. -/
def retry_video_processing (v : VideoRec) : RetryResponse × VideoRec × Bool :=
  if ¬ (v.processing_status = "failed" ∨ v.processing_status = "error") then
    ({ success := false, status_code := 400,
       message := "Video is not in failed state" }, v, false)
  else if v.temp_video_file = "" then
    ({ success := false, status_code := 400,
       message := "Original video file not found" }, v, false)
  else
    ({ success := true, status_code := 200,
       message := "Video queued for reprocessing" },
     { v with processing_status := "pending", processing_progress := 0,
              processing_error := "" }, true)

/-! ## Helper lemmas -/

/-- A concatenation whose left part is non-empty is non-empty. -/
theorem strAppend_ne_empty (a b : String) (h : a.length ≠ 0) : a ++ b ≠ "" := by
  intro hab
  have hlen : (a ++ b).length = (0 : Nat) := by rw [hab]; rfl
  rw [String.length_append] at hlen
  omega

/-! ## C4: `run_command` maps every failure to a failed result -/

/-- Claim C4:  For every command, timeout and operation label,
`FFmpegWrapper.run_command` never raises: it is a total function of the
subprocess outcome.  A zero exit code yields `success = true`; a non-zero
exit, a timeout, a missing tool and an unexpected exception each yield
`success = false` with a non-empty error message; the `timed_out` flag is
set exactly in the timeout case. -/
theorem run_command_spec (timeout : Option Nat) (duration : Nat)
    (o : SubprocessOutcome) :
    ((run_command timeout duration o).success = true ↔
      ∃ out err, o = .completed 0 out err) ∧
    ((run_command timeout duration o).success = false →
      (run_command timeout duration o).error_message ≠ "") ∧
    ((run_command timeout duration o).timed_out = true ↔ o = .timedOut) := by
  rcases o with ⟨rc, out, err⟩ | _ | _ | msg
  · by_cases hrc : rc = 0
    · subst hrc
      refine ⟨⟨fun _ => ⟨out, err, rfl⟩, fun _ => rfl⟩, ?_, ?_⟩
      · intro hfalse
        simp [run_command] at hfalse
      · constructor
        · intro hto
          simp [run_command] at hto
        · intro h
          exact absurd h (by simp)
    · constructor
      · constructor
        · intro hsucc
          simp [run_command, hrc] at hsucc
        · rintro ⟨o2, e2, heq⟩
          injection heq with h1 _ _
          exact absurd h1 hrc
      constructor
      · intro _
        simp only [run_command, if_neg hrc]
        exact strAppend_ne_empty _ _ (by
          rw [String.length_append, String.length_append]
          have : "FFmpeg failed with code ".length = 24 := by decide
          omega)
      · constructor
        · intro hto
          simp [run_command, hrc] at hto
        · intro h
          exact absurd h (by simp)
  · refine ⟨?_, ?_, ?_⟩
    · constructor
      · intro hsucc
        simp [run_command] at hsucc
      · rintro ⟨o2, e2, heq⟩
        exact absurd heq (by simp)
    · intro _
      simp only [run_command]
      exact strAppend_ne_empty _ _ (by
        rw [String.length_append]
        have : "Command timed out after ".length = 24 := by decide
        omega)
    · exact ⟨fun _ => rfl, fun _ => rfl⟩
  · refine ⟨?_, ?_, ?_⟩
    · constructor
      · intro hsucc
        simp [run_command] at hsucc
      · rintro ⟨o2, e2, heq⟩
        exact absurd heq (by simp)
    · intro _
      simp only [run_command]
      decide
    · constructor
      · intro hto
        simp [run_command] at hto
      · intro h
        exact absurd h (by simp)
  · refine ⟨?_, ?_, ?_⟩
    · constructor
      · intro hsucc
        simp [run_command] at hsucc
      · rintro ⟨o2, e2, heq⟩
        exact absurd heq (by simp)
    · intro _
      simp only [run_command]
      exact strAppend_ne_empty _ _ (by decide)
    · constructor
      · intro hto
        simp [run_command] at hto
      · intro h
        exact absurd h (by simp)

/-- Witness for C4: the timeout case, evaluated at a concrete input. -/
theorem run_command_spec_witness :
    (run_command (some 10) 3 .timedOut).error_message ≠ "" ∧
    (run_command (some 10) 3 .timedOut).timed_out = true :=
  ⟨(run_command_spec (some 10) 3 .timedOut).2.1 rfl,
   (run_command_spec (some 10) 3 .timedOut).2.2.mpr rfl⟩

/-! ## C10: the disk-space check fails open -/

/-- Claim C10:  When the disk-usage query raises, `check_disk_space`
returns has-enough `true` with `0` free bytes and an explanatory
message, so pipeline validation with an unreadable disk never blocks on
the disk-space precondition: with the tool available and the source
present, `_validate` passes whatever the disk-check configuration. -/
theorem check_disk_space_fails_open (required : Option Nat)
    (cfg : PipelineConfig) (env : PipelineEnv) (video_path : String)
    (husage : env.disk_usage = none) :
    check_disk_space required env.disk_usage =
      (true, 0, "Could not check disk space") ∧
    "Could not check disk space" ≠ "" ∧
    (env.ffmpeg_available = true → env.source_exists = true →
      pipeline_validate cfg env video_path = none) := by
  rw [husage]
  refine ⟨rfl, by decide, ?_⟩
  intro hff hsrc
  simp only [pipeline_validate, hff, hsrc, husage]
  by_cases hc : cfg.check_disk <;> simp [hc, check_disk_space]

/-- An all-success encode effect, used by concrete witnesses. -/
def effOk : EncodeEffect :=
  { success := fun _ => true, file_size := fun _ => 0,
    duration_seconds := fun _ => 0, error_message := fun _ => "" }

/-- The default pipeline configuration, used by concrete witnesses. -/
def defaultCfg : PipelineConfig := {}

/-- A healthy environment whose disk-usage query raises. -/
def envNoDisk : PipelineEnv :=
  { ffmpeg_available := true, source_exists := true, disk_usage := none,
    poster_ok := true, poster_path := "", preview_ok := true,
    preview_path := "", source_width := 0, source_height := 0,
    eff := effOk, parallel_order := [] }

/-- Witness for C10 at a concrete environment with an unreadable disk. -/
theorem check_disk_space_fails_open_witness :
    check_disk_space (some 5) (none : Option (Nat × Nat × Nat)) =
      (true, 0, "Could not check disk space") ∧
    pipeline_validate defaultCfg envNoDisk "v.mp4" = none := by
  have h := check_disk_space_fails_open (some 5) defaultCfg envNoDisk "v.mp4" rfl
  exact ⟨h.1, h.2.2 rfl rfl⟩

/-! ## C3: profile selection -/

/-- The running minimum stays inside the candidate pool. -/
theorem pyMinFold_mem (p : Profile) (ps : List Profile) :
    ps.foldl pyMinStep p ∈ p :: ps := by
  induction ps generalizing p with
  | nil => simp
  | cons q qs ih =>
      simp only [List.foldl_cons]
      rcases List.mem_cons.mp (ih (pyMinStep p q)) with h | h
      · rw [h, pyMinStep]
        by_cases hq : q.height < p.height <;> simp [hq]
      · simp [List.mem_cons, h]

/-- The running minimum's height is a lower bound for the seed and every
candidate. -/
theorem pyMinFold_le (p : Profile) (ps : List Profile) :
    (ps.foldl pyMinStep p).height ≤ p.height ∧
    ∀ q ∈ ps, (ps.foldl pyMinStep p).height ≤ q.height := by
  induction ps generalizing p with
  | nil => simp
  | cons q qs ih =>
      simp only [List.foldl_cons]
      obtain ⟨ih1, ih2⟩ := ih (pyMinStep p q)
      have hstep_p : (pyMinStep p q).height ≤ p.height := by
        rw [pyMinStep]
        by_cases hq : q.height < p.height
        · simpa [hq] using Nat.le_of_lt hq
        · simp [hq]
      have hstep_q : (pyMinStep p q).height ≤ q.height := by
        rw [pyMinStep]
        by_cases hq : q.height < p.height
        · simp [hq]
        · simpa [hq] using Nat.le_of_not_lt hq
      refine ⟨Nat.le_trans ih1 hstep_p, ?_⟩
      intro r hr
      rcases List.mem_cons.mp hr with rfl | h
      · exact Nat.le_trans ih1 hstep_q
      · exact ih2 r h

/-- `min(profiles, key=height)` on a non-empty list yields a member of
minimal height. -/
theorem pyMinByHeight_spec (profiles : List Profile) (hne : profiles ≠ []) :
    ∃ lowest, pyMinByHeight profiles = some lowest ∧ lowest ∈ profiles ∧
      ∀ p ∈ profiles, lowest.height ≤ p.height := by
  match profiles, hne with
  | p :: ps, _ =>
      refine ⟨ps.foldl pyMinStep p, rfl, pyMinFold_mem p ps, ?_⟩
      intro q hq
      rcases List.mem_cons.mp hq with h | h
      · exact h ▸ (pyMinFold_le p ps).1
      · exact (pyMinFold_le p ps).2 q h

/-- A 240p-only configuration fed a known 200x100 source. -/
def c3profile : Profile :=
  { name := "240p", resolution := "426x240", width := 426, height := 240,
    bitrate := 300 }

/-- Claim C3 counterexample:  With a known source resolution of 200x100
and a single candidate of height 240, `get_suitable_profiles` takes the
fallback branch and returns that candidate, whose height exceeds the
source height — refuting "every returned profile has height not
exceeding the source height". -/
theorem get_suitable_profiles_counterexample :
    get_suitable_profiles 200 100 [c3profile] = [c3profile] ∧
    ¬ (∀ p ∈ get_suitable_profiles 200 100 [c3profile], p.height ≤ 100) := by
  decide

/-- Claim C3 (amended):  On a non-empty candidate list the result is
non-empty; an unknown source resolution returns all candidates; a known
resolution returns exactly the candidates with height at most the source
height when at least one qualifies, and otherwise falls back to the
single first lowest-height candidate (whose height may exceed the
source's). -/
theorem get_suitable_profiles_spec (sw sh : Nat) (profiles : List Profile)
    (hne : profiles ≠ []) :
    get_suitable_profiles sw sh profiles ≠ [] ∧
    (sw = 0 ∨ sh = 0 → get_suitable_profiles sw sh profiles = profiles) ∧
    (¬ (sw = 0 ∨ sh = 0) →
      ((∃ p ∈ profiles, p.height ≤ sh) →
        get_suitable_profiles sw sh profiles =
          profiles.filter (fun p => p.height ≤ sh) ∧
        ∀ p ∈ get_suitable_profiles sw sh profiles, p.height ≤ sh) ∧
      ((∀ p ∈ profiles, ¬ p.height ≤ sh) →
        ∃ lowest, get_suitable_profiles sw sh profiles = [lowest] ∧
          lowest ∈ profiles ∧ ∀ p ∈ profiles, lowest.height ≤ p.height)) := by
  by_cases h0 : sw = 0 ∨ sh = 0
  · refine ⟨?_, fun _ => ?_, fun hc => absurd h0 hc⟩
    · simpa [get_suitable_profiles, h0] using hne
    · simp [get_suitable_profiles, h0]
  · have hform : get_suitable_profiles sw sh profiles =
        (if (profiles.filter (fun p => p.height ≤ sh)).isEmpty then
          match pyMinByHeight profiles with
          | some lowest => [lowest]
          | none => []
        else profiles.filter (fun p => p.height ≤ sh)) := by
      simp [get_suitable_profiles, h0]
    by_cases hemp : (profiles.filter (fun p => p.height ≤ sh)).isEmpty
    · obtain ⟨lowest, hmin, hmem, hle⟩ := pyMinByHeight_spec profiles hne
      rw [hform, if_pos hemp, hmin]
      have hnone : ∀ p ∈ profiles, ¬ p.height ≤ sh := by
        intro p hp hple
        have : p ∈ profiles.filter (fun p => p.height ≤ sh) :=
          List.mem_filter.mpr ⟨hp, by simpa using hple⟩
        rw [List.isEmpty_iff] at hemp
        simp [hemp] at this
      refine ⟨by simp, fun hc => absurd hc h0, fun _ => ⟨?_, ?_⟩⟩
      · rintro ⟨p, hp, hple⟩
        exact absurd hple (hnone p hp)
      · exact fun _ => ⟨lowest, rfl, hmem, hle⟩
    · rw [hform, if_neg hemp]
      rw [List.isEmpty_iff] at hemp
      refine ⟨hemp, fun hc => absurd hc h0, fun _ => ⟨?_, ?_⟩⟩
      · intro _
        refine ⟨rfl, ?_⟩
        intro p hp
        simpa using (List.mem_filter.mp hp).2
      · intro hall
        obtain ⟨p, hp⟩ := List.exists_mem_of_ne_nil _ hemp
        have := (List.mem_filter.mp hp).2
        exact absurd (by simpa using this) (hall p (List.mem_filter.mp hp).1)

/-- Witness for C3 (amended) at a qualifying two-profile configuration. -/
theorem get_suitable_profiles_spec_witness :
    get_suitable_profiles 1280 720
      [{ name := "360p", resolution := "640x360", width := 640, height := 360,
         bitrate := 500 }, c3profile] ≠ [] :=
  (get_suitable_profiles_spec 1280 720
    [{ name := "360p", resolution := "640x360", width := 640, height := 360,
       bitrate := 500 }, c3profile] (by decide)).1

/-! ## C1: parallel vs sequential encoding outcomes -/

/-- `encode_single` reports exactly the attempt's fixed outcome. -/
theorem encode_single_success (eff : EncodeEffect) (d : String) (vid : Nat)
    (p : Profile) : (encode_single eff d vid p).success = eff.success p := by
  by_cases h : eff.success p <;> simp [encode_single, h]

/-- When every attempted profile succeeds, the sequential loop never
breaks: it returns one result per profile, in order. -/
theorem encode_sequential_all_success (eff : EncodeEffect) (d : String)
    (vid total : Nat) (ps : List Profile) (i : Nat)
    (hall : ∀ p ∈ ps, eff.success p = true) :
    (encode_sequential eff d vid total i ps).1 =
      ps.map (encode_single eff d vid) := by
  induction ps generalizing i with
  | nil => rfl
  | cons p ps ih =>
      have hp : (encode_single eff d vid p).success = true := by
        rw [encode_single_success]
        exact hall p (List.mem_cons_self p ps)
      simp only [encode_sequential, hp, if_pos]
      simp [ih (i + 1) (fun q hq => hall q (List.mem_cons_of_mem p hq))]

/-- The parallel loop collects one result per completion, in completion
order. -/
theorem encode_parallel_results (eff : EncodeEffect) (d : String)
    (vid total : Nat) (ps : List Profile) (c : Nat) :
    (encode_parallel eff d vid total c ps).1 =
      ps.map (encode_single eff d vid) := by
  induction ps generalizing c with
  | nil => rfl
  | cons p ps ih => simp [encode_parallel, ih (c + 1)]

/-- A 360p profile whose encode attempt fails in the C1 scenario. -/
def c1p360 : Profile :=
  { name := "360p", resolution := "640x360", width := 640, height := 360,
    bitrate := 500 }

/-- A 720p profile whose encode attempt succeeds in the C1 scenario. -/
def c1p720 : Profile :=
  { name := "720p", resolution := "1280x720", width := 1280, height := 720,
    bitrate := 2500 }

/-- The fixed attempt outcomes of the C1 scenario: only 720p succeeds. -/
def c1eff : EncodeEffect :=
  { success := fun p => p.name == "720p", file_size := fun _ => 0,
    duration_seconds := fun _ => 0, error_message := fun _ => "encode failed" }

/-- Claim C1 counterexample:  With profiles `[360p, 720p]`, fixed outcomes
"360p fails, 720p succeeds" and an unknown source resolution, parallel
mode reports an outcome for 720p but sequential mode `break`s at the
360p failure and reports none — the two modes' per-profile outcome sets
differ. -/
theorem encode_multiple_modes_counterexample :
    ("720p", true) ∈
      ((encode_multiple c1eff "videos" 1 0 0 [c1p360, c1p720] true
          [c1p360, c1p720]).1.map (fun r => (r.profile_name, r.success))) ∧
    ("720p", true) ∉
      ((encode_multiple c1eff "videos" 1 0 0 [c1p360, c1p720] false
          [c1p360, c1p720]).1.map (fun r => (r.profile_name, r.success))) := by
  decide

/-- Claim C1 (amended):  Parallel and sequential modes yield the same
per-profile outcome set whenever every attempted profile's fixed outcome
is success; when some attempt fails, sequential mode stops at the first
failure and omits the remaining profiles' outcomes, while parallel mode
reports every profile. -/
theorem encode_multiple_modes_agree (eff : EncodeEffect) (d : String)
    (vid sw sh : Nat) (profiles order : List Profile)
    (horder : order.Perm (get_suitable_profiles sw sh profiles))
    (hall : ∀ p ∈ get_suitable_profiles sw sh profiles, eff.success p = true) :
    ((encode_multiple eff d vid sw sh profiles true order).1.map
        (fun r => (r.profile_name, r.success))).Perm
      ((encode_multiple eff d vid sw sh profiles false order).1.map
        (fun r => (r.profile_name, r.success))) := by
  by_cases hemp : profiles.isEmpty
  · simp [encode_multiple, hemp]
  · have h1 : profiles.isEmpty = false := by simpa using hemp
    have hdisp : ∀ mode : Bool, encode_multiple eff d vid sw sh profiles mode order =
        (if mode && decide ((get_suitable_profiles sw sh profiles).length > 1) then
          encode_parallel eff d vid
            (get_suitable_profiles sw sh profiles).length 0 order
        else
          encode_sequential eff d vid
            (get_suitable_profiles sw sh profiles).length 0
            (get_suitable_profiles sw sh profiles)) := by
      intro mode
      simp [encode_multiple, h1]
    rw [hdisp true, hdisp false]
    by_cases hlen : (get_suitable_profiles sw sh profiles).length > 1
    · have h2 : decide ((get_suitable_profiles sw sh profiles).length > 1) = true :=
        decide_eq_true hlen
      simp only [h2, Bool.true_and, Bool.false_and, if_true, Bool.false_eq_true,
        if_false]
      rw [encode_parallel_results,
        encode_sequential_all_success eff d vid _ _ 0 hall]
      exact (horder.map (encode_single eff d vid)).map
        (fun r => (r.profile_name, r.success))
    · have h2 : decide ((get_suitable_profiles sw sh profiles).length > 1) = false :=
        decide_eq_false hlen
      simp only [h2, Bool.true_and, Bool.false_and, Bool.and_false,
        Bool.false_eq_true, if_false]
      exact List.Perm.refl _

/-- Witness for C1 (amended): both profiles succeed, unknown source
resolution, parallel completion order reversed. -/
theorem encode_multiple_modes_agree_witness :
    ((encode_multiple effOk "videos" 1 0 0 [c1p360, c1p720] true
        [c1p720, c1p360]).1.map (fun r => (r.profile_name, r.success))).Perm
      ((encode_multiple effOk "videos" 1 0 0 [c1p360, c1p720] false
        [c1p720, c1p360]).1.map (fun r => (r.profile_name, r.success))) :=
  encode_multiple_modes_agree effOk "videos" 1 0 0 [c1p360, c1p720]
    [c1p720, c1p360]
    (by simp [get_suitable_profiles, List.Perm.swap])
    (by intro p _; rfl)

/-! ## C2: the encoding stage aborts exactly on zero successes -/

/-- Claim C2:  A pipeline run that reaches the encoding stage (validation,
poster and preview all passed) returns a failure whose error stage is
`"encoding"` exactly when no profile encoded successfully; with at least
one success it returns a success result that still carries every
per-profile result, failed ones included. -/
theorem process_encoding_stage_gate (cfg : PipelineConfig) (env : PipelineEnv)
    (video_id : Nat) (video_path : String) (profiles : List Profile)
    (hval : pipeline_validate cfg env video_path = none)
    (hposter : env.poster_ok = true) (hpreview : env.preview_ok = true) :
    (((process cfg env video_id video_path profiles).1.success = false ∧
        (process cfg env video_id video_path profiles).1.error_stage =
          "encoding") ↔
      ∀ r ∈ (encode_multiple env.eff "videos" video_id env.source_width
          env.source_height profiles cfg.parallel_encoding
          env.parallel_order).1, r.success = false) ∧
    ((∃ r ∈ (encode_multiple env.eff "videos" video_id env.source_width
          env.source_height profiles cfg.parallel_encoding
          env.parallel_order).1, r.success = true) →
      (process cfg env video_id video_path profiles).1.success = true ∧
      (process cfg env video_id video_path profiles).1.encoded_files =
        (encode_multiple env.eff "videos" video_id env.source_width
          env.source_height profiles cfg.parallel_encoding
          env.parallel_order).1) := by
  have hout : process cfg env video_id video_path profiles =
      (let enc := encode_multiple env.eff "videos" video_id
        env.source_width env.source_height profiles
        cfg.parallel_encoding env.parallel_order
      let emitted := [5, 10, 15, 25, 35] ++ enc.2.map (fun p => 35 + p * 55 / 100)
      if (enc.1.filter (fun r => r.success)).isEmpty then
        ({ success := false, video_id := video_id,
           error_message := "All encoding profiles failed",
           error_stage := "encoding" }, emitted)
      else
        ({ success := true, video_id := video_id,
           poster_path := env.poster_path, preview_path := env.preview_path,
           encoded_files := enc.1 }, emitted ++ [95, 100])) := by
    simp [process, hval, hposter, hpreview]
  set R := (encode_multiple env.eff "videos" video_id env.source_width
    env.source_height profiles cfg.parallel_encoding env.parallel_order).1
    with hR
  by_cases hfe : (R.filter (fun r => r.success)).isEmpty
  · have hnil : R.filter (fun r => r.success) = [] := by
      simpa [List.isEmpty_iff] using hfe
    have hallfail : ∀ r ∈ R, r.success = false := by
      intro r hr
      by_contra hne
      have hs : r.success = true := by
        cases h : r.success with
        | true => rfl
        | false => exact absurd h hne
      have : r ∈ R.filter (fun r => r.success) :=
        List.mem_filter.mpr ⟨hr, hs⟩
      simp [hnil] at this
    constructor
    · exact ⟨fun _ => hallfail, fun _ => by rw [hout]; simp [← hR, hfe]⟩
    · rintro ⟨r, hr, hs⟩
      exact absurd hs (by simp [hallfail r hr])
  · constructor
    · constructor
      · intro h
        have : (process cfg env video_id video_path profiles).1.success = true := by
          rw [hout]; simp [← hR, hfe]
        rw [this] at h
        exact absurd h.1 (by simp)
      · intro hallfail
        have : R.filter (fun r => r.success) = [] :=
          List.filter_eq_nil_iff.mpr (fun r hr => by simp [hallfail r hr])
        rw [List.isEmpty_iff] at hfe
        exact absurd this hfe
    · intro _
      rw [hout]
      simp [← hR, hfe]

/-- A fully healthy pipeline environment, used by concrete witnesses. -/
def envOk : PipelineEnv :=
  { ffmpeg_available := true, source_exists := true,
    disk_usage := some (2000000000000, 0, 2000000000000), poster_ok := true,
    poster_path := "posters/poster_7.jpg", preview_ok := true,
    preview_path := "previews/preview_7.mp4", source_width := 0,
    source_height := 0, eff := effOk, parallel_order := [c1p360] }

/-- Witness for C2: one all-success profile run reaches finalization and
keeps its per-profile results. -/
theorem process_encoding_stage_gate_witness :
    (process defaultCfg envOk 7 "s.mp4" [c1p360]).1.success = true ∧
    (process defaultCfg envOk 7 "s.mp4" [c1p360]).1.encoded_files =
      (encode_multiple envOk.eff "videos" 7 envOk.source_width
        envOk.source_height [c1p360] defaultCfg.parallel_encoding
        envOk.parallel_order).1 :=
  (process_encoding_stage_gate defaultCfg envOk 7 "s.mp4" [c1p360]
      (by decide) rfl rfl).2
    ⟨encode_single envOk.eff "videos" 7 c1p360, by decide, by decide⟩

/-! ## C9: the retry trigger -/

/-- Claim C9:  The retry trigger rejects, with a clear error and no change
to the row and no enqueue, any job that is not in `"failed"`/`"error"`
or whose stored source-file reference is empty; a retryable job with its
source file still referenced is reset to `"pending"` with progress `0`
and cleared error text, and a new processing run is enqueued. -/
theorem retry_video_processing_spec (v : VideoRec) :
    ((¬ (v.processing_status = "failed" ∨ v.processing_status = "error") ∨
        v.temp_video_file = "") →
      (retry_video_processing v).1.success = false ∧
      (retry_video_processing v).1.message ≠ "" ∧
      (retry_video_processing v).2.1 = v ∧
      (retry_video_processing v).2.2 = false) ∧
    ((v.processing_status = "failed" ∨ v.processing_status = "error") →
      v.temp_video_file ≠ "" →
      (retry_video_processing v).1.success = true ∧
      (retry_video_processing v).2.1.processing_status = "pending" ∧
      (retry_video_processing v).2.1.processing_progress = 0 ∧
      (retry_video_processing v).2.1.processing_error = "" ∧
      (retry_video_processing v).2.2 = true) := by
  by_cases hst : v.processing_status = "failed" ∨ v.processing_status = "error"
  · by_cases hfile : v.temp_video_file = ""
    · refine ⟨fun _ => ?_, fun _ hne => absurd hfile hne⟩
      simp only [retry_video_processing, hst, not_true, if_neg, hfile]
      refine ⟨?_, ?_, ?_, ?_⟩ <;> simp [hst, hfile]
    · refine ⟨?_, fun _ _ => ?_⟩
      · rintro (h | h)
        · exact absurd hst h
        · exact absurd h hfile
      · simp [retry_video_processing, hst, hfile]
  · refine ⟨fun _ => ?_, fun h => absurd h hst⟩
    simp [retry_video_processing, hst]

/-- Witness for C9: both a rejected row and an accepted row. -/
theorem retry_video_processing_spec_witness :
    ((retry_video_processing
        { id := 1, processing_status := "completed", updated_at := 0,
          temp_video_file := "a.mp4" }).2.1 =
      { id := 1, processing_status := "completed", updated_at := 0,
        temp_video_file := "a.mp4" }) ∧
    (retry_video_processing
        { id := 2, processing_status := "failed", updated_at := 0,
          temp_video_file := "b.mp4" }).2.1.processing_status = "pending" :=
  ⟨((retry_video_processing_spec
      { id := 1, processing_status := "completed", updated_at := 0,
        temp_video_file := "a.mp4" }).1 (Or.inl (by decide))).2.2.1,
   ((retry_video_processing_spec
      { id := 2, processing_status := "failed", updated_at := 0,
        temp_video_file := "b.mp4" }).2 (Or.inl rfl) (by decide)).2.1⟩

/-! ## C6: the stuck-job sweep -/

/-- Claim C6:  In one sweep, every `"processing"` row whose last update is
strictly older than the 2-hour threshold is reset to `"pending"` with the
non-empty explanatory error, and every `"processing"` row updated at or
after the threshold is left unchanged by the stuck-reset step. -/
theorem stuck_reset_spec (now : Nat) (videos : List VideoRec) (i : Nat)
    (v : VideoRec) (hv : videos[i]? = some v) :
    (v.processing_status = "processing" → v.updated_at < now - 7200 →
      (stuck_reset now videos)[i]? =
        some { v with processing_status := "pending",
                      processing_error := STUCK_ERROR, updated_at := now } ∧
      STUCK_ERROR ≠ "") ∧
    (v.processing_status = "processing" → ¬ v.updated_at < now - 7200 →
      (stuck_reset now videos)[i]? = some v) := by
  have hmap : (stuck_reset now videos)[i]? = some (stuck_reset_one now v) := by
    rw [stuck_reset, List.getElem?_map, hv]
    rfl
  constructor
  · intro h1 h2
    refine ⟨?_, by decide⟩
    rw [hmap, stuck_reset_one, if_pos ⟨h1, h2⟩]
  · intro _ h2
    rw [hmap, stuck_reset_one, if_neg]
    rintro ⟨_, hlt⟩
    exact h2 hlt

/-- Witness for C6: a sweep at `now = 10000` over one stuck row and one
fresh row. -/
theorem stuck_reset_spec_witness :
    (stuck_reset 10000
      [{ id := 1, processing_status := "processing", updated_at := 100 },
       { id := 2, processing_status := "processing", updated_at := 9000 }])[0]? =
      some { id := 1, processing_status := "pending",
             processing_error := STUCK_ERROR, updated_at := 10000 } ∧
    (stuck_reset 10000
      [{ id := 1, processing_status := "processing", updated_at := 100 },
       { id := 2, processing_status := "processing", updated_at := 9000 }])[1]? =
      some { id := 2, processing_status := "processing", updated_at := 9000 } :=
  ⟨((stuck_reset_spec 10000
      [{ id := 1, processing_status := "processing", updated_at := 100 },
       { id := 2, processing_status := "processing", updated_at := 9000 }] 0
      { id := 1, processing_status := "processing", updated_at := 100 }
      rfl).1 rfl (by decide)).1,
   (stuck_reset_spec 10000
      [{ id := 1, processing_status := "processing", updated_at := 100 },
       { id := 2, processing_status := "processing", updated_at := 9000 }] 1
      { id := 2, processing_status := "processing", updated_at := 9000 }
      rfl).2 rfl (by decide)⟩

/-! ## C7: HLS master playlist -/

instance : IsTotal HLSOutput hlsGe :=
  ⟨fun a b => Nat.le_total (extract_bitrate b.profile) (extract_bitrate a.profile)⟩

instance : IsTrans HLSOutput hlsGe :=
  ⟨fun _ _ _ h1 h2 => Nat.le_trans h2 h1⟩

/-- Claim C7:  With zero successful per-profile results the master-playlist
generator returns failure (`none`: no manifest written); with at least
one success it writes a manifest whose variant entries are exactly the
successful outputs, ordered by descending extracted bitrate, after the
fixed header. -/
theorem generate_master_playlist_spec (hls_outputs : List HLSOutput)
    (base_url : String) :
    (generate_master_playlist hls_outputs base_url = none ↔
      ∀ o ∈ hls_outputs, o.success = false) ∧
    (∀ lines, generate_master_playlist hls_outputs base_url = some lines →
      ∃ sorted, sorted.Perm (hls_outputs.filter (fun o => o.success)) ∧
        List.Sorted hlsGe sorted ∧
        lines = ["#EXTM3U", "#EXT-X-VERSION:3", "#EXT-X-TARGETDURATION:10",
          "#EXT-X-MEDIA-SEQUENCE:0"] ++
          (sorted.map (variant_lines base_url)).flatten) := by
  have hperm := List.perm_insertionSort hlsGe
    (hls_outputs.filter (fun o => o.success))
  by_cases hemp :
      (List.insertionSort hlsGe (hls_outputs.filter (fun o => o.success))).isEmpty
  · have hsortnil :
        List.insertionSort hlsGe (hls_outputs.filter (fun o => o.success)) = [] := by
      rwa [List.isEmpty_iff] at hemp
    have hnil : hls_outputs.filter (fun o => o.success) = [] :=
      ((hsortnil ▸ hperm).symm).eq_nil
    have hgen : generate_master_playlist hls_outputs base_url = none := by
      simp [generate_master_playlist, hemp]
    refine ⟨⟨fun _ => ?_, fun _ => hgen⟩, ?_⟩
    · intro o ho
      have := List.filter_eq_nil_iff.mp hnil o ho
      simpa using this
    · intro lines h
      rw [hgen] at h
      exact absurd h (by simp)
  · have hempf :
        (List.insertionSort hlsGe
          (hls_outputs.filter (fun o => o.success))).isEmpty = false := by
      simpa using hemp
    have hgen : generate_master_playlist hls_outputs base_url =
        some (["#EXTM3U", "#EXT-X-VERSION:3", "#EXT-X-TARGETDURATION:10",
          "#EXT-X-MEDIA-SEQUENCE:0"] ++
          ((List.insertionSort hlsGe
            (hls_outputs.filter (fun o => o.success))).map
              (variant_lines base_url)).flatten) := by
      simp [generate_master_playlist, hempf]
    refine ⟨⟨fun h => absurd (hgen ▸ h) (by simp), fun hall => ?_⟩, ?_⟩
    · have hnil : hls_outputs.filter (fun o => o.success) = [] :=
        List.filter_eq_nil_iff.mpr (fun o ho => by simp [hall o ho])
      have : List.insertionSort hlsGe
          (hls_outputs.filter (fun o => o.success)) = [] := by
        rw [hnil]
        rfl
      rw [this] at hempf
      simp at hempf
    · intro lines h
      rw [hgen] at h
      injection h with h
      exact ⟨_, hperm, List.sorted_insertionSort hlsGe _, h.symm⟩

/-- Witness for C7: an all-failed input returns `none`; a mixed input
yields exactly the two successful variants, 720p before 360p. -/
theorem generate_master_playlist_spec_witness :
    generate_master_playlist [⟨false, "480p"⟩] "" = none ∧
    (∃ sorted, sorted.Perm
        ([(⟨true, "360p"⟩ : HLSOutput), ⟨false, "480p"⟩, ⟨true, "720p"⟩].filter
          (fun o => o.success)) ∧
      List.Sorted hlsGe sorted ∧
      ["#EXTM3U", "#EXT-X-VERSION:3", "#EXT-X-TARGETDURATION:10",
       "#EXT-X-MEDIA-SEQUENCE:0",
       "#EXT-X-STREAM-INF:BANDWIDTH=2500000,RESOLUTION=1280x720",
       "720p/playlist.m3u8",
       "#EXT-X-STREAM-INF:BANDWIDTH=500000,RESOLUTION=640x360",
       "360p/playlist.m3u8"] =
        ["#EXTM3U", "#EXT-X-VERSION:3", "#EXT-X-TARGETDURATION:10",
         "#EXT-X-MEDIA-SEQUENCE:0"] ++
          (sorted.map (variant_lines "")).flatten) :=
  ⟨(generate_master_playlist_spec [⟨false, "480p"⟩] "").1.mpr (by decide),
   (generate_master_playlist_spec
      [⟨true, "360p"⟩, ⟨false, "480p"⟩, ⟨true, "720p"⟩] "").2 _ (by decide)⟩

/-! ## C5: alert triggering, cooldown and auto-resolution -/

instance : IsTotal Alert alertCreatedGe :=
  ⟨fun a b => Nat.le_total b.created_at a.created_at⟩

instance : IsTrans Alert alertCreatedGe :=
  ⟨fun _ _ _ h1 h2 => Nat.le_trans h2 h1⟩

/-- The most recent active alert is an active member of the rows. -/
theorem latest_active_alert_mem (alerts : List Alert) (a : Alert)
    (h : latest_active_alert alerts = some a) :
    a ∈ alerts ∧ a.status = .active := by
  rw [latest_active_alert] at h
  cases hs : List.insertionSort alertCreatedGe
      (alerts.filter (fun x => x.status = .active)) with
  | nil => rw [hs] at h; cases h
  | cons hd t =>
      rw [hs] at h
      injection h with h
      have hmem : a ∈ List.insertionSort alertCreatedGe
          (alerts.filter (fun x => x.status = .active)) := by
        rw [hs, ← h]
        exact List.mem_cons_self hd t
      rw [List.mem_insertionSort] at hmem
      obtain ⟨hmem, hact⟩ := List.mem_filter.mp hmem
      exact ⟨hmem, by simpa using hact⟩

/-- The most recent active alert has the maximal `created_at` among the
active rows. -/
theorem latest_active_alert_ge (alerts : List Alert) (a : Alert)
    (h : latest_active_alert alerts = some a) (b : Alert) (hb : b ∈ alerts)
    (hbact : b.status = .active) : b.created_at ≤ a.created_at := by
  rw [latest_active_alert] at h
  cases hs : List.insertionSort alertCreatedGe
      (alerts.filter (fun x => x.status = .active)) with
  | nil => rw [hs] at h; cases h
  | cons hd t =>
      rw [hs] at h
      injection h with h
      have hbmem : b ∈ (hd :: t : List Alert) := by
        rw [← hs, List.mem_insertionSort]
        exact List.mem_filter.mpr ⟨hb, by simp [hbact]⟩
      have hsorted : List.Sorted alertCreatedGe (hd :: t) :=
        hs ▸ List.sorted_insertionSort alertCreatedGe _
      rcases List.mem_cons.mp hbmem with rfl | hbt
      · exact h ▸ Nat.le_refl _
      · exact h ▸ List.rel_of_sorted_cons hsorted b hbt

/-- When every active alert lies outside the cooldown window, the rule is
evaluated. -/
theorem should_check_rule_of_stale (now : Nat) (rule : AlertRule)
    (alerts : List Alert)
    (h : ∀ a ∈ alerts, a.status = .active →
      now - a.created_at > rule.cooldown_minutes) :
    should_check_rule now rule alerts = true := by
  rw [should_check_rule]
  cases hl : latest_active_alert alerts with
  | none => rfl
  | some a =>
      obtain ⟨hmem, hact⟩ := latest_active_alert_mem alerts a hl
      simpa using h a hmem hact

/-- An active alert within the cooldown window suppresses the evaluation. -/
theorem should_check_rule_of_recent (now : Nat) (rule : AlertRule)
    (alerts : List Alert) (a : Alert) (ha : a ∈ alerts)
    (hact : a.status = .active)
    (hcool : now - a.created_at ≤ rule.cooldown_minutes) :
    should_check_rule now rule alerts = false := by
  rw [should_check_rule]
  cases hl : latest_active_alert alerts with
  | none =>
      exfalso
      rw [latest_active_alert] at hl
      have hmem : a ∈ List.insertionSort alertCreatedGe
          (alerts.filter (fun x => x.status = .active)) := by
        rw [List.mem_insertionSort]
        exact List.mem_filter.mpr ⟨ha, by simp [hact]⟩
      cases hs : List.insertionSort alertCreatedGe
          (alerts.filter (fun x => x.status = .active)) with
      | nil => rw [hs] at hmem; simp at hmem
      | cons hd t => rw [hs] at hl; cases hl
  | some b =>
      have hge := latest_active_alert_ge alerts b hl a ha hact
      have hb : now - b.created_at ≤ rule.cooldown_minutes :=
        Nat.le_trans (Nat.sub_le_sub_left hge now) hcool
      exact decide_eq_false (Nat.not_lt.mpr hb)

/-- The C5 scenario rule: threshold 7, cooldown 30 minutes. -/
def c5rule : AlertRule := { threshold_value := 7, cooldown_minutes := 30 }

/-- An alert created at minute 9, still active at the next evaluation. -/
def c5alert : Alert := { created_at := 9, status := .active, current_value := 10 }

/-- Claim C5 counterexample:  At minute 10 the observed value 5 no longer
exceeds the threshold 7, yet the evaluation skips the rule because the
active alert from minute 9 is inside the 30-minute cooldown: the
still-active alert is not resolved, refuting "on a subsequent evaluation
where the value no longer exceeds the threshold, every still-active alert
for that rule is resolved". -/
theorem check_rule_step_counterexample :
    threshold_exceeded c5rule 5 = false ∧
    check_rule_step 10 c5rule 5 [c5alert] = [c5alert] ∧
    c5alert.status = .active := by decide

/-- Claim C5 (amended):  For a rule evaluated by the periodic check: a
breach with every active alert outside the cooldown window creates
exactly one new active alert; any evaluation while an active alert is
inside the cooldown window changes nothing (no duplicate alert, and no
resolution either); an evaluation outside the cooldown window whose
value no longer exceeds the threshold resolves every still-active
alert. -/
theorem check_rule_step_spec (now : Nat) (rule : AlertRule) (value : Int)
    (alerts : List Alert) :
    ((∀ a ∈ alerts, a.status = .active →
        now - a.created_at > rule.cooldown_minutes) →
      threshold_exceeded rule value = true →
      check_rule_step now rule value alerts =
        alerts ++ [{ created_at := now, status := .active,
                     current_value := value }]) ∧
    ((∃ a ∈ alerts, a.status = .active ∧
        now - a.created_at ≤ rule.cooldown_minutes) →
      check_rule_step now rule value alerts = alerts) ∧
    ((∀ a ∈ alerts, a.status = .active →
        now - a.created_at > rule.cooldown_minutes) →
      threshold_exceeded rule value = false →
      check_rule_step now rule value alerts =
        alerts.map (fun a => if a.status = .active then
          { a with status := .resolved, resolved_at := some now } else a) ∧
      ∀ a ∈ check_rule_step now rule value alerts, a.status ≠ .active) := by
  refine ⟨?_, ?_, ?_⟩
  · intro hstale hexc
    have hsc := should_check_rule_of_stale now rule alerts hstale
    simp [check_rule_step, hsc, check_rule, hexc, trigger_alert]
  · rintro ⟨a, ha, hact, hcool⟩
    have hsc := should_check_rule_of_recent now rule alerts a ha hact hcool
    simp [check_rule_step, hsc]
  · intro hstale hfalse
    have hsc := should_check_rule_of_stale now rule alerts hstale
    have hstep : check_rule_step now rule value alerts =
        alerts.map (fun a => if a.status = .active then
          { a with status := .resolved, resolved_at := some now } else a) := by
      simp [check_rule_step, hsc, check_rule, hfalse,
        resolve_alerts_if_needed]
    refine ⟨hstep, ?_⟩
    rw [hstep]
    intro a hmem
    obtain ⟨b, hb, rfl⟩ := List.mem_map.mp hmem
    by_cases hbs : b.status = .active <;> simp [hbs]

/-- Witness for C5 (amended): a stale breach at minute 100 creates
exactly one new alert. -/
theorem check_rule_step_spec_witness :
    check_rule_step 100 c5rule 9
      [{ created_at := 10, status := .active, current_value := 10 }] =
      [{ created_at := 10, status := .active, current_value := 10 },
       { created_at := 100, status := .active, current_value := 9 }] :=
  (check_rule_step_spec 100 c5rule 9
    [{ created_at := 10, status := .active, current_value := 10 }]).1
    (by decide) (by decide)

/-! ## C8: progress reporting -/

/-- Every percent the sequential loop emits from index `i` on is at least
`int((i/total)*100)`. -/
theorem encode_sequential_emits_lb (eff : EncodeEffect) (d : String)
    (vid total : Nat) (ps : List Profile) (i : Nat) :
    ∀ x ∈ (encode_sequential eff d vid total i ps).2, i * 100 / total ≤ x := by
  induction ps generalizing i with
  | nil => simp [encode_sequential]
  | cons p ps ih =>
      intro x hx
      by_cases hs : (encode_single eff d vid p).success
      · simp only [encode_sequential, hs, if_pos] at hx
        rcases List.mem_cons.mp hx with rfl | hx
        · exact Nat.le_refl _
        · exact Nat.le_trans
            (Nat.div_le_div_right (Nat.mul_le_mul_right 100 (Nat.le_succ i)))
            (ih (i + 1) x hx)
      · simp only [encode_sequential, hs, if_neg, Bool.false_eq_true,
          not_false_eq_true] at hx
        rcases List.mem_cons.mp hx with rfl | hx
        · exact Nat.le_refl _
        · simp at hx

/-- The sequential loop's emitted percents are non-decreasing. -/
theorem encode_sequential_emits_sorted (eff : EncodeEffect) (d : String)
    (vid total : Nat) (ps : List Profile) (i : Nat) :
    List.Pairwise (· ≤ ·) (encode_sequential eff d vid total i ps).2 := by
  induction ps generalizing i with
  | nil => simp [encode_sequential]
  | cons p ps ih =>
      by_cases hs : (encode_single eff d vid p).success
      · simp only [encode_sequential, hs, if_pos]
        refine List.Pairwise.cons ?_ (ih (i + 1))
        intro x hx
        exact Nat.le_trans
          (Nat.div_le_div_right (Nat.mul_le_mul_right 100 (Nat.le_succ i)))
          (encode_sequential_emits_lb eff d vid total ps (i + 1) x hx)
      · simp [encode_sequential, hs]

/-- With at most `total` profiles left, the sequential loop's emitted
percents stay at or below 100. -/
theorem encode_sequential_emits_ub (eff : EncodeEffect) (d : String)
    (vid total : Nat) (ps : List Profile) (i : Nat)
    (h : i + ps.length ≤ total) :
    ∀ x ∈ (encode_sequential eff d vid total i ps).2, x ≤ 100 := by
  induction ps generalizing i with
  | nil => simp [encode_sequential]
  | cons p ps ih =>
      have htot : 0 < total := by
        have := ps.length
        simp only [List.length_cons] at h
        omega
      have hemit : i * 100 / total ≤ 100 := by
        calc i * 100 / total ≤ total * 100 / total :=
              Nat.div_le_div_right (Nat.mul_le_mul_right 100 (by
                simp only [List.length_cons] at h
                omega))
          _ = 100 := Nat.mul_div_cancel_left 100 htot
      intro x hx
      by_cases hs : (encode_single eff d vid p).success
      · simp only [encode_sequential, hs, if_pos] at hx
        rcases List.mem_cons.mp hx with rfl | hx
        · exact hemit
        · exact ih (i + 1) (by simp only [List.length_cons] at h; omega) x hx
      · simp only [encode_sequential, hs, if_neg, Bool.false_eq_true,
          not_false_eq_true] at hx
        rcases List.mem_cons.mp hx with rfl | hx
        · exact hemit
        · simp at hx

/-- Every percent the parallel loop emits after `c` completions is at
least `int(((c+1)/total)*100)`. -/
theorem encode_parallel_emits_lb (eff : EncodeEffect) (d : String)
    (vid total : Nat) (ps : List Profile) (c : Nat) :
    ∀ x ∈ (encode_parallel eff d vid total c ps).2,
      (c + 1) * 100 / total ≤ x := by
  induction ps generalizing c with
  | nil => simp [encode_parallel]
  | cons p ps ih =>
      intro x hx
      simp only [encode_parallel] at hx
      rcases List.mem_cons.mp hx with rfl | hx
      · exact Nat.le_refl _
      · exact Nat.le_trans
          (Nat.div_le_div_right (Nat.mul_le_mul_right 100 (Nat.le_succ (c + 1))))
          (ih (c + 1) x hx)

/-- The parallel loop's emitted percents are non-decreasing. -/
theorem encode_parallel_emits_sorted (eff : EncodeEffect) (d : String)
    (vid total : Nat) (ps : List Profile) (c : Nat) :
    List.Pairwise (· ≤ ·) (encode_parallel eff d vid total c ps).2 := by
  induction ps generalizing c with
  | nil => simp [encode_parallel]
  | cons p ps ih =>
      simp only [encode_parallel]
      refine List.Pairwise.cons ?_ (ih (c + 1))
      intro x hx
      exact Nat.le_trans
        (Nat.div_le_div_right (Nat.mul_le_mul_right 100 (Nat.le_succ (c + 1))))
        (encode_parallel_emits_lb eff d vid total ps (c + 1) x hx)

/-- With at most `total` completions in all, the parallel loop's emitted
percents stay at or below 100. -/
theorem encode_parallel_emits_ub (eff : EncodeEffect) (d : String)
    (vid total : Nat) (ps : List Profile) (c : Nat)
    (h : c + ps.length ≤ total) :
    ∀ x ∈ (encode_parallel eff d vid total c ps).2, x ≤ 100 := by
  induction ps generalizing c with
  | nil => simp [encode_parallel]
  | cons p ps ih =>
      have htot : 0 < total := by
        simp only [List.length_cons] at h
        omega
      intro x hx
      simp only [encode_parallel] at hx
      rcases List.mem_cons.mp hx with rfl | hx
      · calc (c + 1) * 100 / total ≤ total * 100 / total :=
              Nat.div_le_div_right (Nat.mul_le_mul_right 100 (by
                simp only [List.length_cons] at h
                omega))
          _ = 100 := Nat.mul_div_cancel_left 100 htot
      · exact ih (c + 1) (by simp only [List.length_cons] at h; omega) x hx

/-- The emitted percents of `encode_multiple` are non-decreasing and stay
at or below 100 (for parallel mode, under the completion order being a
permutation of the suitable profiles). -/
theorem encode_multiple_emits_props (eff : EncodeEffect) (d : String)
    (vid sw sh : Nat) (profiles : List Profile) (parallel : Bool)
    (order : List Profile)
    (horder : order.Perm (get_suitable_profiles sw sh profiles)) :
    List.Pairwise (· ≤ ·)
      (encode_multiple eff d vid sw sh profiles parallel order).2 ∧
    ∀ x ∈ (encode_multiple eff d vid sw sh profiles parallel order).2,
      x ≤ 100 := by
  by_cases hemp : profiles.isEmpty
  · simp [encode_multiple, hemp]
  · have h1 : profiles.isEmpty = false := by simpa using hemp
    simp only [encode_multiple, h1, Bool.false_eq_true, if_false]
    by_cases hcond :
        (parallel && decide ((get_suitable_profiles sw sh profiles).length > 1)) = true
    · rw [if_pos hcond]
      exact ⟨encode_parallel_emits_sorted eff d vid _ order 0,
        encode_parallel_emits_ub eff d vid _ order 0
          (by simpa using Nat.le_of_eq horder.length_eq)⟩
    · rw [if_neg hcond]
      exact ⟨encode_sequential_emits_sorted eff d vid _ _ 0,
        encode_sequential_emits_ub eff d vid _ _ 0 (by simp)⟩

/-- The pipeline's wrapping `35 + int(p * 0.55)` of an encoder percent is
monotone. -/
theorem pipewrap_mono {p q : Nat} (h : p ≤ q) :
    35 + p * 55 / 100 ≤ 35 + q * 55 / 100 :=
  Nat.add_le_add_left (Nat.div_le_div_right (Nat.mul_le_mul_right 55 h)) 35

/-- An encoder percent at most 100 wraps to at most 90. -/
theorem pipewrap_le {p : Nat} (h : p ≤ 100) : 35 + p * 55 / 100 ≤ 90 := by
  have : p * 55 ≤ 5500 := Nat.mul_le_mul_right 55 h
  have : p * 55 / 100 ≤ 5500 / 100 := Nat.div_le_div_right this
  omega

/-- Claim C8:  During one pipeline run the sequence of percent values
reported through the progress callback is non-decreasing and bounded by
100, and a successful run's final reported value is exactly 100 (the
parallel completion order being a permutation of the suitable
profiles). -/
theorem process_progress_monotone (cfg : PipelineConfig) (env : PipelineEnv)
    (video_id : Nat) (video_path : String) (profiles : List Profile)
    (horder : env.parallel_order.Perm
      (get_suitable_profiles env.source_width env.source_height profiles)) :
    List.Pairwise (· ≤ ·) (process cfg env video_id video_path profiles).2 ∧
    (∀ x ∈ (process cfg env video_id video_path profiles).2, x ≤ 100) ∧
    ((process cfg env video_id video_path profiles).1.success = true →
      (process cfg env video_id video_path profiles).2.getLast? =
        some 100) := by
  cases hval : pipeline_validate cfg env video_path with
  | some e =>
      refine ⟨?_, ?_, ?_⟩
      · simp [process, hval]
      · intro x hx
        simp [process, hval] at hx
        omega
      · intro hs
        simp [process, hval] at hs
  | none =>
      by_cases hposter : env.poster_ok
      case neg =>
        refine ⟨?_, ?_, ?_⟩
        · simp [process, hval, hposter]
        · intro x hx
          simp [process, hval, hposter] at hx
          omega
        · intro hs
          simp [process, hval, hposter] at hs
      by_cases hpreview : env.preview_ok
      case neg =>
        refine ⟨?_, ?_, ?_⟩
        · simp [process, hval, hposter, hpreview]
        · intro x hx
          simp [process, hval, hposter, hpreview] at hx
          omega
        · intro hs
          simp [process, hval, hposter, hpreview] at hs
      -- main path: the encoding stage is reached
      obtain ⟨hsort, hub⟩ := encode_multiple_emits_props env.eff "videos"
        video_id env.source_width env.source_height profiles
        cfg.parallel_encoding env.parallel_order horder
      set E := (encode_multiple env.eff "videos" video_id env.source_width
        env.source_height profiles cfg.parallel_encoding
        env.parallel_order) with hE
      have hmsort : List.Pairwise (· ≤ ·)
          (E.2.map (fun p => 35 + p * 55 / 100)) :=
        List.Pairwise.map _ (fun a b hab => pipewrap_mono hab) hsort
      have hmlb : ∀ x ∈ E.2.map (fun p => 35 + p * 55 / 100), 35 ≤ x := by
        intro x hx
        obtain ⟨p, _, rfl⟩ := List.mem_map.mp hx
        omega
      have hmub : ∀ x ∈ E.2.map (fun p => 35 + p * 55 / 100), x ≤ 90 := by
        intro x hx
        obtain ⟨p, hp, rfl⟩ := List.mem_map.mp hx
        exact pipewrap_le (hub p hp)
      have hpresort : List.Pairwise (· ≤ ·)
          ([5, 10, 15, 25, 35] ++ E.2.map (fun p => 35 + p * 55 / 100)) := by
        rw [List.pairwise_append]
        refine ⟨by simp, hmsort, ?_⟩
        intro a ha b hb
        have hb35 := hmlb b hb
        have : a ≤ 35 := by
          simp at ha
          omega
        omega
      have hpreub : ∀ x ∈ [5, 10, 15, 25, 35] ++
          E.2.map (fun p => 35 + p * 55 / 100), x ≤ 100 := by
        intro x hx
        rcases List.mem_append.mp hx with hx | hx
        · simp at hx
          omega
        · exact Nat.le_trans (hmub x hx) (by omega)
      by_cases hfe : (E.1.filter (fun r => r.success)).isEmpty
      · have hout : process cfg env video_id video_path profiles =
            ({ success := false, video_id := video_id,
               error_message := "All encoding profiles failed",
               error_stage := "encoding" },
             [5, 10, 15, 25, 35] ++ E.2.map (fun p => 35 + p * 55 / 100)) := by
          simp [process, hval, hposter, hpreview, ← hE, hfe]
        rw [hout]
        exact ⟨hpresort, hpreub, fun hs => by simp at hs⟩
      · have hout : process cfg env video_id video_path profiles =
            ({ success := true, video_id := video_id,
               poster_path := env.poster_path,
               preview_path := env.preview_path, encoded_files := E.1 },
             ([5, 10, 15, 25, 35] ++
               E.2.map (fun p => 35 + p * 55 / 100)) ++ [95, 100]) := by
          simp [process, hval, hposter, hpreview, ← hE, hfe]
        rw [hout]
        refine ⟨?_, ?_, fun _ => ?_⟩
        · rw [List.pairwise_append]
          refine ⟨hpresort, by simp, ?_⟩
          intro a ha b hb
          rcases List.mem_append.mp ha with ha | ha
          · have : a ≤ 35 := by
              simp at ha
              omega
            have : b = 95 ∨ b = 100 := by simpa using hb
            omega
          · have := hmub a ha
            have : b = 95 ∨ b = 100 := by simpa using hb
            omega
        · intro x hx
          rcases List.mem_append.mp hx with hx | hx
          · exact hpreub x hx
          · have : x = 95 ∨ x = 100 := by simpa using hx
            omega
        · rw [List.getLast?_append_of_ne_nil _ (by simp)]
          rfl

/-- Witness for C8: a healthy run over one profile. -/
theorem process_progress_monotone_witness :
    List.Pairwise (· ≤ ·) (process defaultCfg envOk 7 "s.mp4" [c1p360]).2 ∧
    (∀ x ∈ (process defaultCfg envOk 7 "s.mp4" [c1p360]).2, x ≤ 100) ∧
    ((process defaultCfg envOk 7 "s.mp4" [c1p360]).1.success = true →
      (process defaultCfg envOk 7 "s.mp4" [c1p360]).2.getLast? =
        some 100) :=
  process_progress_monotone defaultCfg envOk 7 "s.mp4" [c1p360] (by decide)

end TuboCMS
